import Mathlib

/-!
Shallow embedding of the mat32 vector engine (src/vector.go) over exact
rational scalars standing in for float32 values.  Machine arithmetic is
modelled exactly; the external primitives layer (the f32/blas32 kernels)
is modelled from its contract in the specification.  Go panics become
Except results; interface dispatch is specialised to raw VecDense
operands (every vector in the model exposes its raw form), and pointer
aliasing between the receiver and a source operand is captured by
dedicated per-configuration definitions that share one evolving buffer.
-/

namespace Mat32

/-- Error taxonomy of the package: ErrShape, the negative-dimension panic,
ErrIndexOutOfRange and ErrZeroLength. -/
inductive MatError where
  | errShape
  | errNegativeDimension
  | errIndexOutOfRange
  | errZeroLength
  deriving DecidableEq, Repr

/-- blas32.Vector: a strided raw buffer descriptor (Inc, Data). -/
structure Blas32Vector where
  inc : Nat
  data : List ℚ
  deriving DecidableEq, Repr

/-- VecDense: a column vector with raw buffer `mat` and logical length `n`. -/
structure VecDense where
  mat : Blas32Vector
  n : Nat
  deriving DecidableEq, Repr

/-- Modelled from the spec: element access at logical index i reads storage
index i*stride (the at/AtVec accessor lives in a file outside src/). -/
def atVec (v : VecDense) (i : Nat) : ℚ :=
  v.mat.data.getD (i * v.mat.inc) 0

/-- Modelled from the spec: setVec writes storage index i*stride. -/
def setVec (v : VecDense) (i : Nat) (x : ℚ) : VecDense :=
  ⟨⟨v.mat.inc, v.mat.data.set (i * v.mat.inc) x⟩, v.n⟩

/-- IsZero: the receiver is the zero-size sentinel iff its stride is 0. -/
def isZero (v : VecDense) : Bool :=
  v.mat.inc == 0

/-- Cap: (cap(Data)-1)/Inc + 1 for a non-sentinel vector, with the Go
truncating integer division; the list model identifies cap with length. -/
def capVec (v : VecDense) : Int :=
  if isZero v then 0 else ((v.mat.data.length : Int) - 1).tdiv v.mat.inc + 1

/-- Dims: (0,0) for the sentinel, else (n, 1). -/
def dims (v : VecDense) : Nat × Nat :=
  if isZero v then (0, 0) else (v.n, 1)

/-- Reset: stride and length go to 0 together; Data is truncated to length 0. -/
def reset (v : VecDense) : VecDense :=
  ⟨⟨0, v.mat.data.take 0⟩, 0⟩

/-- A freshly declared VecDense: sentinel state (Inc 0, no data, n 0). -/
def emptyVec : VecDense :=
  ⟨⟨0, []⟩, 0⟩

/-- NewVecDense(n, data): negative n panics with the negative-dimension
error; non-nil data of the wrong length panics with ErrShape; nil data is
replaced by a zero-filled buffer of length n. -/
def newVecDense (len : Int) (data : Option (List ℚ)) : Except MatError VecDense :=
  if len < 0 then .error .errNegativeDimension
  else
    match data with
    | some d =>
        if (d.length : Int) ≠ len then .error .errShape
        else .ok ⟨⟨1, d⟩, len.toNat⟩
    | none => .ok ⟨⟨1, List.replicate len.toNat 0⟩, len.toNat⟩

/-- Modelled from the spec: the storage-reuse helper `use` (defined outside
src/) returns the existing buffer truncated to n when its capacity
suffices, else a fresh zero-filled buffer of length n. -/
def use (d : List ℚ) (r : Nat) : List ℚ :=
  if r ≤ d.length then d.take r else List.replicate r 0

/-- reuseAs(r): r == 0 panics ErrZeroLength; a sentinel receiver is sized
to r with stride 1; a non-sentinel receiver must already have length r,
else ErrShape. -/
def reuseAs (v : VecDense) (r : Nat) : Except MatError VecDense :=
  if r = 0 then .error .errZeroLength
  else if isZero v then .ok ⟨⟨1, use v.mat.data r⟩, r⟩
  else if r ≠ v.n then .error .errShape
  else .ok v

/-- SliceVec(i, k): panics ErrIndexOutOfRange when i < 0, k <= i or
Cap() < k; otherwise a view of length k-i over
Data[i*Inc : (k-1)*Inc+1] keeping the stride of the receiver. -/
def sliceVec (v : VecDense) (i k : Int) : Except MatError VecDense :=
  if i < 0 ∨ k ≤ i ∨ capVec v < k then .error .errIndexOutOfRange
  else
    .ok ⟨⟨v.mat.inc,
      (v.mat.data.drop (i.toNat * v.mat.inc)).take
        ((k.toNat - 1) * v.mat.inc + 1 - i.toNat * v.mat.inc)⟩,
      k.toNat - i.toNat⟩

/-- Modelled from the spec: the non-aliased strided kernels of the
primitives layer (axpyUnitaryTo/axpyStridedTo, scaleUnitaryTo/
scaleStridedTo, copy) write dst[i*dstInc] := f i for i below the loop
bound, where f reads the source buffers captured before the loop. -/
def writeStrided (d : List ℚ) (inc : Nat) (f : Nat → ℚ) : Nat → List ℚ
  | 0 => d
  | n + 1 => (writeStrided d inc f n).set (n * inc) (f n)

/-- Modelled from the spec: an axpy kernel whose y operand is the same
buffer as dst (receiver aliased to the first source): step i writes
dst[i*dInc] := alpha*x[i*x.inc] + dst[i*dInc], reading the evolving
buffer. -/
def axpySelfLoop (d : List ℚ) (dInc : Nat) (alpha : ℚ) (x : Blas32Vector) :
    Nat → List ℚ
  | 0 => d
  | n + 1 =>
      let d1 := axpySelfLoop d dInc alpha x n
      d1.set (n * dInc) (alpha * x.data.getD (n * x.inc) 0 + d1.getD (n * dInc) 0)

/-- The element-wise-divide loop of DivElemVec when the receiver is the
same object as the numerator a: step i writes
d[i*inc] := d[i*inc] / b[i*b.inc], reading the evolving shared buffer.
Both the strided loop (amat.Data[ia] with ia += amat.Inc) and the slow
loop (a.AtVec(i)) reduce to this shape when v == a. -/
def divSelfALoop (d : List ℚ) (inc : Nat) (b : Blas32Vector) : Nat → List ℚ
  | 0 => d
  | n + 1 =>
      let d1 := divSelfALoop d inc b n
      d1.set (n * inc) (d1.getD (n * inc) 0 / b.data.getD (n * b.inc) 0)

/-- CopyVec for a receiver distinct from the raw source: copies
min(v.Len, a.Len) elements via the copy kernel. -/
def copyVecInto (v a : VecDense) : VecDense :=
  ⟨⟨v.mat.inc,
    writeStrided v.mat.data v.mat.inc (fun i => atVec a i) (min v.n a.n)⟩,
    v.n⟩

/-- AddVec(a, b) for a receiver distinct from both raw operands: shape
check, reuseAs, then the axpy kernel dst = 1*b + a (unit-stride kernel
when all strides are 1, strided kernel otherwise). -/
def addVec (v a b : VecDense) : Except MatError VecDense := do
  if a.n ≠ b.n then throw .errShape
  let v1 ← reuseAs v a.n
  if v1.mat.inc = 1 ∧ a.mat.inc = 1 ∧ b.mat.inc = 1 then
    .ok ⟨⟨1, writeStrided v1.mat.data 1
      (fun i => 1 * atVec b i + atVec a i) a.n⟩, v1.n⟩
  else
    .ok ⟨⟨v1.mat.inc, writeStrided v1.mat.data v1.mat.inc
      (fun i => 1 * atVec b i + atVec a i) a.n⟩, v1.n⟩

/-- AddVec(v, b) where the receiver is the same object as a (the call
v.AddVec(v, b)): the axpy kernel runs with y aliased to dst.  The
unit-stride kernel iterates over the full aliased buffer; the strided
kernel iterates n times. -/
def addVecSelfA (v b : VecDense) : Except MatError VecDense := do
  if v.n ≠ b.n then throw .errShape
  let v1 ← reuseAs v v.n
  if v1.mat.inc = 1 ∧ b.mat.inc = 1 then
    .ok ⟨⟨1, axpySelfLoop v1.mat.data 1 1 b.mat v1.mat.data.length⟩, v1.n⟩
  else
    .ok ⟨⟨v1.mat.inc, axpySelfLoop v1.mat.data v1.mat.inc 1 b.mat v1.n⟩, v1.n⟩

/-- SubVec(a, b) for a receiver distinct from both raw operands: the axpy
kernel dst = -1*b + a. -/
def subVec (v a b : VecDense) : Except MatError VecDense := do
  if a.n ≠ b.n then throw .errShape
  let v1 ← reuseAs v a.n
  if v1.mat.inc = 1 ∧ a.mat.inc = 1 ∧ b.mat.inc = 1 then
    .ok ⟨⟨1, writeStrided v1.mat.data 1
      (fun i => -1 * atVec b i + atVec a i) a.n⟩, v1.n⟩
  else
    .ok ⟨⟨v1.mat.inc, writeStrided v1.mat.data v1.mat.inc
      (fun i => -1 * atVec b i + atVec a i) a.n⟩, v1.n⟩

/-- ScaleVec(alpha, a) for a receiver distinct from the raw source:
reuseAs, then the scale kernel dst = alpha*src. -/
def scaleVec (v : VecDense) (alpha : ℚ) (a : VecDense) :
    Except MatError VecDense := do
  let v1 ← reuseAs v a.n
  if v1.mat.inc = 1 ∧ a.mat.inc = 1 then
    .ok ⟨⟨1, writeStrided v1.mat.data 1
      (fun i => alpha * atVec a i) a.n⟩, v1.n⟩
  else
    .ok ⟨⟨v1.mat.inc, writeStrided v1.mat.data v1.mat.inc
      (fun i => alpha * atVec a i) a.n⟩, v1.n⟩

/-- MulElemVec(a, b) for a receiver distinct from both raw operands: the
unit-stride fast loop ranges over amat.Data and returns; the strided loop
runs n times and returns. -/
def mulElemVec (v a b : VecDense) : Except MatError VecDense := do
  if a.n ≠ b.n then throw .errShape
  let v1 ← reuseAs v a.n
  if v1.mat.inc = 1 ∧ a.mat.inc = 1 ∧ b.mat.inc = 1 then
    .ok ⟨⟨1, writeStrided v1.mat.data 1
      (fun i => a.mat.data.getD i 0 * b.mat.data.getD i 0)
      a.mat.data.length⟩, v1.n⟩
  else
    .ok ⟨⟨v1.mat.inc, writeStrided v1.mat.data v1.mat.inc
      (fun i => atVec a i * atVec b i) a.n⟩, v1.n⟩

/-- DivElemVec(a, b) for a receiver distinct from both raw operands.  The
unit-stride fast loop returns, but the strided loop does NOT return in the
source, falling through into the slow per-element loop, which recomputes
the same quotients from the (unchanged, distinct) operands. -/
def divElemVec (v a b : VecDense) : Except MatError VecDense := do
  if a.n ≠ b.n then throw .errShape
  let v1 ← reuseAs v a.n
  if v1.mat.inc = 1 ∧ a.mat.inc = 1 ∧ b.mat.inc = 1 then
    .ok ⟨⟨1, writeStrided v1.mat.data 1
      (fun i => a.mat.data.getD i 0 / b.mat.data.getD i 0)
      a.mat.data.length⟩, v1.n⟩
  else
    let d1 := writeStrided v1.mat.data v1.mat.inc
      (fun i => atVec a i / atVec b i) a.n
    let d2 := writeStrided d1 v1.mat.inc
      (fun i => atVec a i / atVec b i) a.n
    .ok ⟨⟨v1.mat.inc, d2⟩, v1.n⟩

/-- DivElemVec(v, b) where the receiver is the same object as the
numerator a (the call v.DivElemVec(v, b)).  The unit-stride fast loop
runs once over the shared buffer and returns.  The strided loop writes
the quotients into the shared buffer and then — because the source has no
return there — falls through into the slow loop, which re-reads the
already-overwritten shared buffer and divides by b a second time. -/
def divElemVecSelfA (v b : VecDense) : Except MatError VecDense := do
  if v.n ≠ b.n then throw .errShape
  let v1 ← reuseAs v v.n
  if v1.mat.inc = 1 ∧ b.mat.inc = 1 then
    .ok ⟨⟨1, divSelfALoop v1.mat.data 1 b.mat v1.mat.data.length⟩, v1.n⟩
  else
    let d1 := divSelfALoop v1.mat.data v1.mat.inc b.mat v1.n
    let d2 := divSelfALoop d1 v1.mat.inc b.mat v1.n
    .ok ⟨⟨v1.mat.inc, d2⟩, v1.n⟩

/-- AddScaledVec(a, alpha, b) for a receiver distinct from both raw
operands: factors +1 and -1 dispatch to AddVec and SubVec before any
other work; factor 0 copies a; otherwise the axpy kernel
dst = alpha*b + a runs. -/
def addScaledVec (v a : VecDense) (alpha : ℚ) (b : VecDense) :
    Except MatError VecDense :=
  if alpha = 1 then addVec v a b
  else if alpha = -1 then subVec v a b
  else do
    if a.n ≠ b.n then throw .errShape
    let v1 ← reuseAs v a.n
    if alpha = 0 then
      .ok (copyVecInto v1 a)
    else if v1.mat.inc = 1 ∧ a.mat.inc = 1 ∧ b.mat.inc = 1 then
      .ok ⟨⟨1, writeStrided v1.mat.data 1
        (fun i => alpha * atVec b i + atVec a i) a.n⟩, v1.n⟩
    else
      .ok ⟨⟨v1.mat.inc, writeStrided v1.mat.data v1.mat.inc
        (fun i => alpha * atVec b i + atVec a i) a.n⟩, v1.n⟩

/-- Which case of the MulVec type switch the (untransposed) matrix
operand aU selects: a Vector (carrying the underlying VecDense), a
RawTriangular, a RawMatrixer (general dense raw form, served by the gemv
kernel), or an opaque Matrix (served by the nested accumulation
loops). -/
inductive MatForm where
  | vecShaped (av : VecDense)
  | rawTriangular
  | rawMatrixer
  | opaqueMat
  deriving DecidableEq, Repr

/-- A matrix operand for MulVec in untransposed form: r rows, c columns,
element function, and the capability the type switch dispatches on.  For
the vecShaped form the matrix is the r-by-1 column with el i 0 the
elements of the carried vector. -/
structure Mat where
  r : Nat
  c : Nat
  el : Nat → Nat → ℚ
  form : MatForm

/-- a.At(i, j) of the presented operand: the transpose wrapper swaps the
index roles of the untransposed element function. -/
def opAt (A : Mat) (trans : Bool) (i j : Nat) : ℚ :=
  if trans then A.el j i else A.el i j

/-- The inner accumulation of one result row of MulVec:
f := 0; for j < bound: f += a.At(i, j) * b[j]. -/
def dotRow (A : Mat) (trans : Bool) (i : Nat) (b : VecDense) : Nat → ℚ
  | 0 => 0
  | j + 1 => dotRow A trans i b j + opAt A trans i j * atVec b j

/-- The dot-product accumulation of the vector-shaped branch:
sum := 0; for i < bound: sum += aU[i] * b[i] (the unit-stride and strided
dot kernels compute the same sum per the spec contract). -/
def dotVec (av b : VecDense) : Nat → ℚ
  | 0 => 0
  | j + 1 => dotVec av b j + atVec av j * atVec b j

/-- MulVec(a, b) for a receiver distinct from both operands, the matrix
operand given by its untransposed form A with the transpose flag
(aU, trans := untranspose(a), so a.Dims() is (A.r, A.c) or swapped under
trans), and b a raw VecDense (fast = true; the non-fast sub-branches of
opaque operands are unreachable in this model).  Conformance check on
Dims, reuseAs to the presented row count, then the source type switch:
vector-shaped aU scales aU by b[0] when b.Len() == 1 and otherwise
writes the dot product of aU and b into element 0 (both sub-branches
return); RawTriangular copies b into the receiver and applies the
triangular multiply honoring the transpose flag (Trmv, modelled from the
spec as v := op(T)·v over the copied values) and then — having no return
in the source — falls through into the trailing slow loop, which
recomputes every element from the original operands a.At(i,j) and b;
RawMatrixer applies the gemv kernel honoring the transpose flag
(modelled from the spec as result = 1·op(A)·b + 0·result) and returns;
an opaque matrix takes the fast nested accumulation loop over
a.At(i, j) * b[j] and returns. -/
def mulVec (v : VecDense) (A : Mat) (trans : Bool) (b : VecDense) :
    Except MatError VecDense := do
  if (if trans then A.r else A.c) ≠ (dims b).1 ∨ (dims b).2 ≠ 1 then
    throw .errShape
  let v1 ← reuseAs v (if trans then A.c else A.r)
  match A.form with
  | .vecShaped av =>
      if b.n = 1 then
        scaleVec v1 (atVec b 0) av
      else
        .ok (setVec v1 0 (dotVec av b (if trans then A.r else A.c)))
  | .rawTriangular =>
      let v2 := copyVecInto v1 b
      let v3 : VecDense := ⟨⟨v2.mat.inc, writeStrided v2.mat.data v2.mat.inc
        (fun i => dotRow A trans i v2 (if trans then A.r else A.c))
        (if trans then A.c else A.r)⟩, v2.n⟩
      .ok ⟨⟨v3.mat.inc, writeStrided v3.mat.data v3.mat.inc
        (fun i => dotRow A trans i b (if trans then A.r else A.c))
        (if trans then A.c else A.r)⟩, v3.n⟩
  | .rawMatrixer =>
      .ok ⟨⟨v1.mat.inc, writeStrided v1.mat.data v1.mat.inc
        (fun i => dotRow A trans i b (if trans then A.r else A.c))
        (if trans then A.c else A.r)⟩, v1.n⟩
  | .opaqueMat =>
      .ok ⟨⟨v1.mat.inc, writeStrided v1.mat.data v1.mat.inc
        (fun i => dotRow A trans i b (if trans then A.r else A.c))
        (if trans then A.c else A.r)⟩, v1.n⟩

/-- The n-by-n matrix with ones on the diagonal and zeros elsewhere. -/
def idMat (n : Nat) (form : MatForm) : Mat :=
  ⟨n, n, fun i j => if i = j then 1 else 0, form⟩

/-- The 1-by-1 identity presented as a vector-shaped operand carrying the
one-element vector [1]. -/
def idVecMat : Mat :=
  ⟨1, 1, fun i j => if i = j then 1 else 0, .vecShaped ⟨⟨1, [1]⟩, 1⟩⟩

/-- A unit-stride vector of length n whose element i is g i. -/
def mkUnitVec (g : Nat → ℚ) (n : Nat) : VecDense :=
  ⟨⟨1, (List.range n).map g⟩, n⟩

/-! Helper lemmas about the loop primitives. -/

theorem length_writeStrided (d : List ℚ) (inc : Nat) (f : Nat → ℚ) :
    ∀ n, (writeStrided d inc f n).length = d.length := by
  intro n
  induction n with
  | zero => rfl
  | succ n ih => simp [writeStrided, ih]

theorem getElem?_writeStrided (d : List ℚ) (inc : Nat) (f : Nat → ℚ)
    (hinc : 0 < inc) :
    ∀ n j, j < n → j * inc < d.length →
      (writeStrided d inc f n)[j * inc]? = some (f j) := by
  intro n
  induction n with
  | zero => intro j hj _; omega
  | succ n ih =>
      intro j hj hlen
      by_cases hjn : j = n
      · subst hjn
        have hl : j * inc < (writeStrided d inc f j).length := by
          rw [length_writeStrided]; exact hlen
        simpa [writeStrided] using List.getElem?_set_self hl
      · have hj2 : j < n := by omega
        have hne : n * inc ≠ j * inc := by
          intro h
          exact hjn (Nat.eq_of_mul_eq_mul_right hinc h).symm
        rw [writeStrided, List.getElem?_set_ne hne]
        exact ih j hj2 hlen

theorem getD_writeStrided (d : List ℚ) (inc : Nat) (f : Nat → ℚ)
    (hinc : 0 < inc) (n j : Nat) (hj : j < n) (hlen : j * inc < d.length) :
    (writeStrided d inc f n).getD (j * inc) 0 = f j := by
  rw [List.getD_eq_getElem?_getD, getElem?_writeStrided d inc f hinc n j hj hlen]
  rfl

theorem writeStrided_unit_eq_map (d : List ℚ) (f : Nat → ℚ) (n : Nat)
    (hd : d.length = n) :
    writeStrided d 1 f n = (List.range n).map f := by
  apply List.ext_getElem?
  intro p
  by_cases hp : p < n
  · have h1 : (writeStrided d 1 f n)[p]? = some (f p) := by
      have := getElem?_writeStrided d 1 f (by omega) n p hp (by omega)
      simpa using this
    rw [h1, List.getElem?_map, List.getElem?_range hp]
    rfl
  · have h1 : (writeStrided d 1 f n).length ≤ p := by
      rw [length_writeStrided, hd]; omega
    have h2 : ((List.range n).map f).length ≤ p := by
      simp [List.length_range]; omega
    rw [List.getElem?_eq_none h1, List.getElem?_eq_none h2]

theorem set_getD_self (l : List ℚ) (i : Nat) (h : i < l.length) :
    l.set i (l.getD i 0) = l := by
  apply List.ext_getElem?
  intro p
  by_cases hp : i = p
  · subst hp
    rw [List.getElem?_set_self h, List.getD_eq_getElem?_getD,
      List.getElem?_eq_getElem h]
    rfl
  · rw [List.getElem?_set_ne hp]

theorem axpySelfLoop_zero_x (d : List ℚ) (inc : Nat) (x : Blas32Vector)
    (hx : ∀ j, x.data.getD j 0 = 0) :
    ∀ n, (∀ j, j < n → j * inc < d.length) → axpySelfLoop d inc 1 x n = d := by
  intro n
  induction n with
  | zero => intro _; rfl
  | succ n ih =>
      intro h
      have hrec : axpySelfLoop d inc 1 x n = d :=
        ih (fun j hj => h j (by omega))
      show (axpySelfLoop d inc 1 x n).set (n * inc)
        (1 * x.data.getD (n * x.inc) 0 +
          (axpySelfLoop d inc 1 x n).getD (n * inc) 0) = d
      rw [hrec, hx, one_mul, zero_add]
      exact set_getD_self d (n * inc) (h n (by omega))

theorem getD_replicate_zero (n i : Nat) :
    (List.replicate n (0 : ℚ)).getD i 0 = 0 := by
  rw [List.getD_eq_getElem?_getD, List.getElem?_replicate]
  by_cases h : i < n <;> simp [h]

theorem opAt_idMat (n : Nat) (form : MatForm) (trans : Bool) (i j : Nat) :
    opAt (idMat n form) trans i j = if i = j then (1 : ℚ) else 0 := by
  cases trans with
  | false => rfl
  | true =>
      show (if j = i then (1 : ℚ) else 0) = if i = j then 1 else 0
      by_cases h : i = j
      · rw [if_pos h.symm, if_pos h]
      · rw [if_neg (fun hh => h hh.symm), if_neg h]

theorem dotRow_idMat_ge (n : Nat) (form : MatForm) (trans : Bool)
    (b : VecDense) (i : Nat) :
    ∀ m, m ≤ i → dotRow (idMat n form) trans i b m = 0 := by
  intro m
  induction m with
  | zero => intro _; rfl
  | succ m ih =>
      intro h
      have hne : i ≠ m := by omega
      show dotRow (idMat n form) trans i b m +
        opAt (idMat n form) trans i m * atVec b m = 0
      rw [ih (by omega), opAt_idMat, if_neg hne, zero_mul, add_zero]

theorem dotRow_idMat (n : Nat) (form : MatForm) (trans : Bool)
    (b : VecDense) (i : Nat) :
    ∀ m, i < m → dotRow (idMat n form) trans i b m = atVec b i := by
  intro m
  induction m with
  | zero => intro h; omega
  | succ m ih =>
      intro h
      by_cases him : i = m
      · subst him
        show dotRow (idMat n form) trans i b i +
          opAt (idMat n form) trans i i * atVec b i = atVec b i
        rw [dotRow_idMat_ge n form trans b i i le_rfl, opAt_idMat,
          if_pos rfl, one_mul, zero_add]
      · have hlt : i < m := by omega
        show dotRow (idMat n form) trans i b m +
          opAt (idMat n form) trans i m * atVec b m = atVec b i
        rw [ih hlt, opAt_idMat, if_neg him, zero_mul, add_zero]

/-! Claim theorems. -/

/-- C3 counterexample: NewVecDense(0, nil) does NOT yield the sentinel
zero-size vector: it succeeds with stride 1 (not 0) and IsZero false,
so the claimed invariant (n == 0 iff stride == 0) fails for it. -/
theorem newVecDense_zero_not_sentinel :
    newVecDense 0 none = .ok ⟨⟨1, []⟩, 0⟩ ∧
    isZero (⟨⟨1, []⟩, 0⟩ : VecDense) = false ∧
    (⟨⟨1, []⟩, 0⟩ : VecDense).mat.inc ≠ 0 := by
  refine ⟨by rfl, by rfl, by decide⟩

/-- C3 (amended): construction with positive length yields stride 1 and
nonzero length (so n == 0 iff stride == 0 holds there), and Reset
establishes the sentinel with stride and length 0 together; but
NewVecDense(0, nil) succeeds with stride 1 and n = 0, IsZero false,
violating the claimed iff at the zero-length construction. -/
theorem stride_sentinel_invariant (v w : VecDense) (len : Int)
    (d : Option (List ℚ)) (hw : newVecDense len d = .ok w) (hpos : 0 < len) :
    (w.mat.inc = 1 ∧ w.n ≠ 0) ∧
    ((reset v).mat.inc = 0 ∧ (reset v).n = 0 ∧ isZero (reset v) = true) ∧
    (∀ z, newVecDense 0 none = .ok z →
      z.mat.inc = 1 ∧ z.n = 0 ∧ isZero z = false) := by
  refine ⟨?_, ⟨rfl, rfl, rfl⟩, ?_⟩
  · unfold newVecDense at hw
    rw [if_neg (by omega)] at hw
    cases d with
    | some dd =>
        dsimp only at hw
        by_cases hl : (dd.length : Int) ≠ len
        · rw [if_pos hl] at hw; exact absurd hw (by simp)
        · rw [if_neg hl] at hw
          have hw2 : w = ⟨⟨1, dd⟩, len.toNat⟩ := by
            cases hw; rfl
          subst hw2
          exact ⟨rfl, by simp; omega⟩
    | none =>
        dsimp only at hw
        have hw2 : w = ⟨⟨1, List.replicate len.toNat 0⟩, len.toNat⟩ := by
          cases hw; rfl
        subst hw2
        exact ⟨rfl, by simp; omega⟩
  · intro z hz
    have hz2 : z = ⟨⟨1, []⟩, 0⟩ := by
      have h0 : newVecDense 0 none = .ok ⟨⟨1, []⟩, 0⟩ := by rfl
      rw [h0] at hz
      cases hz; rfl
    subst hz2
    exact ⟨rfl, rfl, rfl⟩

/-- C3 witness for the amended theorem, at len = 2 with nil storage, and
the zero-length construction instantiated at its computed result. -/
theorem stride_sentinel_invariant_witness :
    ((⟨⟨1, List.replicate 2 0⟩, 2⟩ : VecDense).mat.inc = 1 ∧
      (⟨⟨1, List.replicate 2 0⟩, 2⟩ : VecDense).n ≠ 0) ∧
    ((reset emptyVec).mat.inc = 0 ∧ (reset emptyVec).n = 0 ∧
      isZero (reset emptyVec) = true) ∧
    ((⟨⟨1, []⟩, 0⟩ : VecDense).mat.inc = 1 ∧
      (⟨⟨1, []⟩, 0⟩ : VecDense).n = 0 ∧
      isZero (⟨⟨1, []⟩, 0⟩ : VecDense) = false) :=
  have h := stride_sentinel_invariant emptyVec ⟨⟨1, List.replicate 2 0⟩, 2⟩ 2
    none (by rfl) (by decide)
  ⟨h.1, h.2.1, h.2.2 ⟨⟨1, []⟩, 0⟩ (by rfl)⟩

/-- C5: NewVecDense fails with the negative-dimension error for every
negative length (with or without storage), fails with ErrShape for
present storage of mismatched length, and with absent storage returns a
zero-filled vector of the requested length. -/
theorem newVecDense_construction (len : Int) (d : List ℚ) :
    (len < 0 → newVecDense len (some d) = .error .errNegativeDimension ∧
      newVecDense len none = .error .errNegativeDimension) ∧
    (0 ≤ len → (d.length : Int) ≠ len →
      newVecDense len (some d) = .error .errShape) ∧
    (0 ≤ len →
      newVecDense len none = .ok ⟨⟨1, List.replicate len.toNat 0⟩, len.toNat⟩ ∧
      ∀ i, atVec ⟨⟨1, List.replicate len.toNat 0⟩, len.toNat⟩ i = 0) := by
  refine ⟨?_, ?_, ?_⟩
  · intro hneg
    constructor <;> · unfold newVecDense; rw [if_pos hneg]
  · intro hge hne
    unfold newVecDense
    rw [if_neg (by omega)]
    dsimp only
    rw [if_pos hne]
  · intro hge
    refine ⟨?_, ?_⟩
    · unfold newVecDense
      rw [if_neg (by omega)]
    · intro i
      show (List.replicate len.toNat (0 : ℚ)).getD (i * 1) 0 = 0
      exact getD_replicate_zero len.toNat (i * 1)

/-- C5 witness: length 3 with a buffer of length 2 is a shape error;
length -1 is a negative-dimension error; length 2 with absent storage is
the zero vector of length 2. -/
theorem newVecDense_construction_witness :
    newVecDense 3 (some [1, 2]) = .error .errShape ∧
    newVecDense (-1) none = .error .errNegativeDimension ∧
    newVecDense 2 none = .ok ⟨⟨1, List.replicate 2 0⟩, 2⟩ :=
  ⟨(newVecDense_construction 3 [1, 2]).2.1 (by decide) (by decide),
    ((newVecDense_construction (-1) [1, 2]).1 (by decide)).2,
    ((newVecDense_construction 2 [1, 2]).2.2 (by decide)).1⟩

/-- C4: every binary operation checks operand shapes first and fails with
ErrShape on mismatched operands before writing any result (the model
returns the error with the receiver untouched): equal-length checks for
AddVec, SubVec, MulElemVec, DivElemVec and AddScaledVec (factor other
than +1 or -1), and matrix-vector conformance for MulVec. -/
theorem binary_ops_shape_mismatch (v a b : VecDense) (A : Mat)
    (trans : Bool) (alpha : ℚ)
    (hab : a.n ≠ b.n) (h1 : alpha ≠ 1) (h2 : alpha ≠ -1)
    (hA : (if trans then A.r else A.c) ≠ b.n) :
    addVec v a b = .error .errShape ∧
    subVec v a b = .error .errShape ∧
    mulElemVec v a b = .error .errShape ∧
    divElemVec v a b = .error .errShape ∧
    addScaledVec v a alpha b = .error .errShape ∧
    mulVec v A trans b = .error .errShape := by
  refine ⟨?_, ?_, ?_, ?_, ?_, ?_⟩
  · unfold addVec; rw [if_pos hab]; rfl
  · unfold subVec; rw [if_pos hab]; rfl
  · unfold mulElemVec; rw [if_pos hab]; rfl
  · unfold divElemVec; rw [if_pos hab]; rfl
  · unfold addScaledVec
    rw [if_neg h1, if_neg h2, if_pos hab]
    rfl
  · unfold mulVec
    by_cases hz : isZero b
    · rw [if_pos (Or.inr (by simp [dims, hz]))]; rfl
    · rw [if_pos (Or.inl (by simp [dims, hz]; exact hA))]; rfl

/-- C4 witness, at length-2 versus length-3 operands and a 2-by-2 matrix
against the length-3 vector, with scale factor 5. -/
theorem binary_ops_shape_mismatch_witness :
    addVec emptyVec ⟨⟨1, [1, 2]⟩, 2⟩ ⟨⟨1, [1, 2, 3]⟩, 3⟩ =
      .error .errShape ∧
    subVec emptyVec ⟨⟨1, [1, 2]⟩, 2⟩ ⟨⟨1, [1, 2, 3]⟩, 3⟩ =
      .error .errShape ∧
    mulElemVec emptyVec ⟨⟨1, [1, 2]⟩, 2⟩ ⟨⟨1, [1, 2, 3]⟩, 3⟩ =
      .error .errShape ∧
    divElemVec emptyVec ⟨⟨1, [1, 2]⟩, 2⟩ ⟨⟨1, [1, 2, 3]⟩, 3⟩ =
      .error .errShape ∧
    addScaledVec emptyVec ⟨⟨1, [1, 2]⟩, 2⟩ 5 ⟨⟨1, [1, 2, 3]⟩, 3⟩ =
      .error .errShape ∧
    mulVec emptyVec ⟨2, 2, fun _ _ => 1, .rawMatrixer⟩ false
      ⟨⟨1, [1, 2, 3]⟩, 3⟩ = .error .errShape :=
  binary_ops_shape_mismatch emptyVec ⟨⟨1, [1, 2]⟩, 2⟩ ⟨⟨1, [1, 2, 3]⟩, 3⟩
    ⟨2, 2, fun _ _ => 1, .rawMatrixer⟩ false 5
    (by decide) (by norm_num) (by norm_num) (by decide)

/-- C10: every mutating operation that sizes its receiver through reuseAs
fails with ErrZeroLength when the required result length is 0, for any
receiver: AddVec, SubVec, MulElemVec, DivElemVec, AddScaledVec (any
factor), ScaleVec with a distinct source, and MulVec with a 0-row
matrix. -/
theorem zero_length_ops (v a b : VecDense) (A : Mat) (trans : Bool)
    (alpha : ℚ)
    (ha : a.n = 0) (hb : b.n = 0)
    (hAr : (if trans then A.c else A.r) = 0)
    (hAc : (if trans then A.r else A.c) = b.n)
    (hbz : isZero b = false) :
    addVec v a b = .error .errZeroLength ∧
    subVec v a b = .error .errZeroLength ∧
    mulElemVec v a b = .error .errZeroLength ∧
    divElemVec v a b = .error .errZeroLength ∧
    addScaledVec v a alpha b = .error .errZeroLength ∧
    scaleVec v alpha a = .error .errZeroLength ∧
    mulVec v A trans b = .error .errZeroLength := by
  have hre : reuseAs v 0 = .error .errZeroLength := by
    unfold reuseAs; rw [if_pos rfl]
  have hadd : addVec v a b = .error .errZeroLength := by
    unfold addVec
    rw [if_neg (by omega : ¬a.n ≠ b.n)]
    show (reuseAs v a.n >>= _) = _
    rw [ha, hre]
    rfl
  have hsub : subVec v a b = .error .errZeroLength := by
    unfold subVec
    rw [if_neg (by omega : ¬a.n ≠ b.n)]
    show (reuseAs v a.n >>= _) = _
    rw [ha, hre]
    rfl
  refine ⟨hadd, hsub, ?_, ?_, ?_, ?_, ?_⟩
  · unfold mulElemVec
    rw [if_neg (by omega : ¬a.n ≠ b.n)]
    show (reuseAs v a.n >>= _) = _
    rw [ha, hre]
    rfl
  · unfold divElemVec
    rw [if_neg (by omega : ¬a.n ≠ b.n)]
    show (reuseAs v a.n >>= _) = _
    rw [ha, hre]
    rfl
  · unfold addScaledVec
    by_cases h1 : alpha = 1
    · rw [if_pos h1]; exact hadd
    · rw [if_neg h1]
      by_cases h2 : alpha = -1
      · rw [if_pos h2]; exact hsub
      · rw [if_neg h2, if_neg (by omega : ¬a.n ≠ b.n)]
        show (reuseAs v a.n >>= _) = _
        rw [ha, hre]
        rfl
  · unfold scaleVec
    show (reuseAs v a.n >>= _) = _
    rw [ha, hre]
    rfl
  · unfold mulVec
    rw [if_neg (by simp [dims, hbz, hAc])]
    show (reuseAs v (if trans then A.c else A.r) >>= _) = _
    rw [hAr, hre]
    rfl

/-- C10 witness: two validly constructed length-0 vectors (the result of
NewVecDense(0, nil): stride 1, empty data) are rejected by every
operation with ErrZeroLength. -/
theorem zero_length_ops_witness :
    addVec emptyVec ⟨⟨1, []⟩, 0⟩ ⟨⟨1, []⟩, 0⟩ = .error .errZeroLength ∧
    subVec emptyVec ⟨⟨1, []⟩, 0⟩ ⟨⟨1, []⟩, 0⟩ = .error .errZeroLength ∧
    mulElemVec emptyVec ⟨⟨1, []⟩, 0⟩ ⟨⟨1, []⟩, 0⟩ = .error .errZeroLength ∧
    divElemVec emptyVec ⟨⟨1, []⟩, 0⟩ ⟨⟨1, []⟩, 0⟩ = .error .errZeroLength ∧
    addScaledVec emptyVec ⟨⟨1, []⟩, 0⟩ 7 ⟨⟨1, []⟩, 0⟩ =
      .error .errZeroLength ∧
    scaleVec emptyVec 7 ⟨⟨1, []⟩, 0⟩ = .error .errZeroLength ∧
    mulVec emptyVec ⟨0, 0, fun _ _ => 0, .opaqueMat⟩ false ⟨⟨1, []⟩, 0⟩ =
      .error .errZeroLength :=
  zero_length_ops emptyVec ⟨⟨1, []⟩, 0⟩ ⟨⟨1, []⟩, 0⟩
    ⟨0, 0, fun _ _ => 0, .opaqueMat⟩ false 7 rfl rfl rfl rfl (by decide)

theorem bind_ok {β : Type} (x : VecDense) (f : VecDense → Except MatError β) :
    (Except.ok x >>= f : Except MatError β) = f x := rfl

theorem reuseAs_empty (r : Nat) (hr : 0 < r) :
    reuseAs emptyVec r = .ok ⟨⟨1, List.replicate r 0⟩, r⟩ := by
  have h1 : use ([] : List ℚ) r = List.replicate r 0 := by
    unfold use
    rw [if_neg (by simp; omega)]
  unfold reuseAs
  rw [if_neg (by omega)]
  rw [if_pos (by rfl : isZero emptyVec = true)]
  show (Except.ok (⟨⟨1, use ([] : List ℚ) r⟩, r⟩ : VecDense) :
    Except MatError VecDense) = _
  rw [h1]

/-- C8: with a fresh receiver, ScaleVec(1, a) produces exactly the
elements of a (a value no-op), and ScaleVec(0, a) produces the zero
vector of length len(a). -/
theorem scaleVec_one_identity_zero (a : VecDense) (hpos : 0 < a.n) :
    scaleVec emptyVec 1 a = .ok (mkUnitVec (fun i => atVec a i) a.n) ∧
    scaleVec emptyVec 0 a = .ok (mkUnitVec (fun _ => (0 : ℚ)) a.n) := by
  have hws : ∀ alpha : ℚ, scaleVec emptyVec alpha a =
      .ok ⟨⟨1, (List.range a.n).map (fun i => alpha * atVec a i)⟩, a.n⟩ := by
    intro alpha
    unfold scaleVec
    rw [reuseAs_empty a.n hpos, bind_ok]
    dsimp only
    by_cases hai : a.mat.inc = 1
    · rw [if_pos ⟨rfl, hai⟩]
      rw [writeStrided_unit_eq_map _ _ _ (by simp)]
    · rw [if_neg (fun h => hai h.2)]
      rw [writeStrided_unit_eq_map _ _ _ (by simp)]
  refine ⟨?_, ?_⟩
  · rw [hws 1]
    unfold mkUnitVec
    simp [one_mul]
  · rw [hws 0]
    unfold mkUnitVec
    simp [zero_mul]

/-- C8 witness at a = [4, 6]. -/
theorem scaleVec_one_identity_zero_witness :
    scaleVec emptyVec 1 ⟨⟨1, [4, 6]⟩, 2⟩ =
      .ok (mkUnitVec (fun i => atVec ⟨⟨1, [4, 6]⟩, 2⟩ i) 2) ∧
    scaleVec emptyVec 0 ⟨⟨1, [4, 6]⟩, 2⟩ =
      .ok (mkUnitVec (fun _ => (0 : ℚ)) 2) :=
  scaleVec_one_identity_zero ⟨⟨1, [4, 6]⟩, 2⟩ (by decide)

/-- C1: AddScaledVec with factor +1 is exactly the AddVec computation and
with factor -1 exactly the SubVec computation (the source dispatches to
those calls before any other work, so the results agree bit for bit);
with factor 0 the result is a copy of a, whose elements equal the general
formula a[i] + 0*b[i] evaluated element-wise in the exact scalar
model. -/
theorem addScaledVec_special_factors (v a b : VecDense)
    (hn : a.n = b.n) (hpos : 0 < a.n) :
    addScaledVec v a 1 b = addVec v a b ∧
    addScaledVec v a (-1) b = subVec v a b ∧
    addScaledVec emptyVec a 0 b =
      .ok (mkUnitVec (fun i => atVec a i + 0 * atVec b i) a.n) := by
  refine ⟨?_, ?_, ?_⟩
  · unfold addScaledVec; rw [if_pos rfl]
  · unfold addScaledVec; rw [if_neg (by norm_num), if_pos rfl]
  · unfold addScaledVec
    rw [if_neg (by norm_num), if_neg (by norm_num)]
    rw [if_neg (by omega : ¬a.n ≠ b.n)]
    show (reuseAs emptyVec a.n >>= _) = _
    rw [reuseAs_empty a.n hpos, bind_ok]
    dsimp only
    rw [if_pos rfl]
    unfold copyVecInto
    dsimp only
    rw [min_self]
    rw [writeStrided_unit_eq_map _ _ _ (by simp)]
    unfold mkUnitVec
    simp [zero_mul]

/-- C1 witness at a = [1, 2], b = [3, 4]. -/
theorem addScaledVec_special_factors_witness :
    addScaledVec emptyVec ⟨⟨1, [1, 2]⟩, 2⟩ 1 ⟨⟨1, [3, 4]⟩, 2⟩ =
      addVec emptyVec ⟨⟨1, [1, 2]⟩, 2⟩ ⟨⟨1, [3, 4]⟩, 2⟩ ∧
    addScaledVec emptyVec ⟨⟨1, [1, 2]⟩, 2⟩ (-1) ⟨⟨1, [3, 4]⟩, 2⟩ =
      subVec emptyVec ⟨⟨1, [1, 2]⟩, 2⟩ ⟨⟨1, [3, 4]⟩, 2⟩ ∧
    addScaledVec emptyVec ⟨⟨1, [1, 2]⟩, 2⟩ 0 ⟨⟨1, [3, 4]⟩, 2⟩ =
      .ok (mkUnitVec
        (fun i => atVec ⟨⟨1, [1, 2]⟩, 2⟩ i + 0 * atVec ⟨⟨1, [3, 4]⟩, 2⟩ i) 2) :=
  addScaledVec_special_factors emptyVec ⟨⟨1, [1, 2]⟩, 2⟩ ⟨⟨1, [3, 4]⟩, 2⟩
    rfl (by decide)

/-- C9: the self-aliased call v.AddVec(v, z) with z an all-zero vector of
the same positive length leaves the receiver (every element, indeed the
whole value) unchanged, through the aliasing-aware axpy kernel. -/
theorem addVec_self_zero (v z : VecDense)
    (hpos : 0 < v.n) (hinc : 0 < v.mat.inc)
    (hlen : (v.n - 1) * v.mat.inc < v.mat.data.length)
    (hn : v.n = z.n) (hz : ∀ j, z.mat.data.getD j 0 = 0) :
    addVecSelfA v z = .ok v := by
  unfold addVecSelfA
  rw [if_neg (by omega : ¬v.n ≠ z.n)]
  show (reuseAs v v.n >>= _) = _
  have hre : reuseAs v v.n = .ok v := by
    unfold reuseAs
    rw [if_neg (by omega)]
    rw [if_neg (by simp [isZero]; omega)]
    rw [if_neg (by omega : ¬v.n ≠ v.n)]
  rw [hre, bind_ok]
  by_cases hu : v.mat.inc = 1 ∧ z.mat.inc = 1
  · rw [if_pos hu]
    have hloop : axpySelfLoop v.mat.data 1 1 z.mat v.mat.data.length =
        v.mat.data :=
      axpySelfLoop_zero_x _ _ _ hz _ (fun j hj => by simpa using hj)
    rw [hloop]
    have hv : (⟨⟨1, v.mat.data⟩, v.n⟩ : VecDense) = v := by rw [← hu.1]
    rw [hv]
  · rw [if_neg hu]
    have hloop : axpySelfLoop v.mat.data v.mat.inc 1 z.mat v.n = v.mat.data :=
      axpySelfLoop_zero_x _ _ _ hz _ (fun j hj =>
        lt_of_le_of_lt
          (Nat.mul_le_mul_right v.mat.inc (by omega : j ≤ v.n - 1)) hlen)
    rw [hloop]

/-- C9 witness: v = [2, 3] plus the zero vector [0, 0] leaves v
unchanged. -/
theorem addVec_self_zero_witness :
    addVecSelfA ⟨⟨1, [2, 3]⟩, 2⟩ ⟨⟨1, [0, 0]⟩, 2⟩ =
      .ok ⟨⟨1, [2, 3]⟩, 2⟩ :=
  addVec_self_zero ⟨⟨1, [2, 3]⟩, 2⟩ ⟨⟨1, [0, 0]⟩, 2⟩ (by decide) (by decide)
    (by decide) rfl (fun j => by rcases j with _ | _ | j <;> rfl)

/-- C2 (evaluation of the code at the failing input): the self-aliased
call v.DivElemVec(v, b) with v a stride-2 view holding [5, 10] (backing
data [5, 7, 10, 7]) and b = [5, 5] leaves the receiver holding
[1/5, 2/5] instead of the claimed element-wise quotients [1, 2]: the
strided loop writes the correct quotients, but the missing return lets
the slow loop divide the already-overwritten receiver by b a second
time. -/
theorem divElemVec_self_strided_double_divide :
    divElemVecSelfA ⟨⟨2, [5, 7, 10, 7]⟩, 2⟩ ⟨⟨1, [5, 5]⟩, 2⟩ =
      .ok ⟨⟨2, [1/5, 7, 2/5, 7]⟩, 2⟩ ∧
    atVec ⟨⟨2, [1/5, 7, 2/5, 7]⟩, 2⟩ 0 ≠ 1 ∧
    atVec ⟨⟨2, [1/5, 7, 2/5, 7]⟩, 2⟩ 1 ≠ 2 := by
  refine ⟨?_, by norm_num [atVec], by norm_num [atVec]⟩
  unfold divElemVecSelfA
  norm_num [reuseAs, isZero, divSelfALoop, bind_ok]

/-- C6: MulVec with the n-by-n identity matrix stores exactly the
elements of b into the receiver, in both dispatch branches of the model
(the gemv fast path for a raw general matrix and the nested accumulation
loop for an opaque matrix), and each element equals the nested-loop
fallback sum dotRow. -/
theorem mulVec_empty_eval (A : Mat) (trans : Bool) (b : VecDense)
    (hform : A.form = .rawTriangular ∨ A.form = .rawMatrixer ∨
      A.form = .opaqueMat)
    (hc : (if trans then A.r else A.c) = b.n)
    (hbz : isZero b = false)
    (hr : 0 < (if trans then A.c else A.r)) :
    mulVec emptyVec A trans b =
      .ok (mkUnitVec
        (fun i => dotRow A trans i b (if trans then A.r else A.c))
        (if trans then A.c else A.r)) := by
  unfold mulVec
  rw [if_neg (by simp [dims, hbz, hc])]
  show (reuseAs emptyVec (if trans then A.c else A.r) >>= _) = _
  rw [reuseAs_empty _ hr, bind_ok]
  rcases hform with h | h | h
  · rw [h]
    dsimp only [copyVecInto]
    rw [writeStrided_unit_eq_map _ _ _ (by simp [length_writeStrided])]
    rfl
  · rw [h]
    dsimp only
    rw [writeStrided_unit_eq_map _ _ _ (by simp)]
    rfl
  · rw [h]
    dsimp only
    rw [writeStrided_unit_eq_map _ _ _ (by simp)]
    rfl

/-- C6: MulVec with the n-by-n identity matrix stores exactly the
elements of b into the receiver in every dispatch branch an identity can
take: the triangular branch (CopyVec, Trmv, and the trailing loop it
falls into), the gemv branch for a raw general matrix, the nested
accumulation loop for an opaque matrix — each under both transpose
flags — and, for the 1-by-1 identity presented as a vector-shaped
operand, the scale branch taken when b.Len() == 1.  Every branch result
equals the nested-loop fallback sum dotRow, which equals b
element-wise. -/
theorem mulVec_identity (n : Nat) (form : MatForm) (trans : Bool)
    (b b1 : VecDense)
    (hpos : 0 < n) (hb : b.n = n) (hbz : isZero b = false)
    (hform : form = MatForm.rawTriangular ∨ form = MatForm.rawMatrixer ∨
      form = MatForm.opaqueMat)
    (hb1 : b1.n = 1) (hb1z : isZero b1 = false) :
    mulVec emptyVec (idMat n form) trans b =
      .ok (mkUnitVec (fun i => atVec b i) n) ∧
    mulVec emptyVec idVecMat trans b1 =
      .ok (mkUnitVec (fun i => atVec b1 i) 1) ∧
    (∀ i, i < n → dotRow (idMat n form) trans i b n = atVec b i) := by
  have hdot : ∀ i, i < n → dotRow (idMat n form) trans i b n = atVec b i :=
    fun i hi => dotRow_idMat n form trans b i n hi
  refine ⟨?_, ?_, hdot⟩
  · rw [mulVec_empty_eval (idMat n form) trans b hform
      (by cases trans <;> · show n = b.n; omega) hbz
      (by cases trans <;> exact hpos)]
    have hmap : (List.range n).map
        (fun i => dotRow (idMat n form) trans i b n) =
        (List.range n).map (fun i => atVec b i) :=
      List.map_congr_left (fun i hi => hdot i (List.mem_range.mp hi))
    show (Except.ok (mkUnitVec
      (fun i => dotRow (idMat n form) trans i b (if trans then n else n))
      (if trans then n else n)) : Except MatError VecDense) = _
    simp only [ite_self]
    unfold mkUnitVec
    rw [hmap]
  · unfold mulVec idVecMat
    rw [if_neg (by simp [dims, hb1z, hb1])]
    show (reuseAs emptyVec (if trans then 1 else 1) >>= _) = _
    rw [(ite_self 1 : (if trans then (1 : Nat) else 1) = 1),
      reuseAs_empty 1 (by decide), bind_ok]
    dsimp only
    rw [if_pos hb1]
    unfold scaleVec
    have hre2 : reuseAs ⟨⟨1, List.replicate 1 0⟩, 1⟩ 1 =
        .ok ⟨⟨1, List.replicate 1 0⟩, 1⟩ := by
      unfold reuseAs
      rw [if_neg (by decide), if_neg (by simp [isZero]), if_neg (by decide)]
    show (reuseAs ⟨⟨1, List.replicate 1 0⟩, 1⟩ 1 >>= _) = _
    rw [hre2, bind_ok]
    rw [if_pos ⟨rfl, rfl⟩]
    rw [writeStrided_unit_eq_map _ _ _ (by simp)]
    unfold mkUnitVec
    simp [atVec]

/-- C6 witness at n = 2, b = [3, 7], the triangular form without
transpose, and the 1-by-1 vector-shaped identity against b1 = [9]. -/
theorem mulVec_identity_witness :
    mulVec emptyVec (idMat 2 .rawTriangular) false ⟨⟨1, [3, 7]⟩, 2⟩ =
      .ok (mkUnitVec (fun i => atVec ⟨⟨1, [3, 7]⟩, 2⟩ i) 2) ∧
    mulVec emptyVec idVecMat false ⟨⟨1, [9]⟩, 1⟩ =
      .ok (mkUnitVec (fun i => atVec ⟨⟨1, [9]⟩, 1⟩ i) 1) :=
  have h := mulVec_identity 2 .rawTriangular false ⟨⟨1, [3, 7]⟩, 2⟩
    ⟨⟨1, [9]⟩, 1⟩ (by decide) rfl (by decide) (Or.inl rfl) rfl (by decide)
  ⟨h.1, h.2.1⟩

theorem capVec_setVec (v : VecDense) (p : Nat) (x : ℚ) :
    capVec (setVec v p x) = capVec v := by
  unfold capVec setVec isZero
  simp

/-- C7: SliceVec(i, k) fails with ErrIndexOutOfRange exactly when i < 0,
k <= i, or k exceeds the capacity; on success it returns a view of
length k-i over the shared storage whose element j reads element i+j of
the receiver, and writing element i+j of the receiver is the same as
writing element j of the view (the view of the updated vector is the
updated view). -/
theorem sliceVec_spec (v : VecDense) (i k : Int) :
    (sliceVec v i k = .error .errIndexOutOfRange ↔
      (i < 0 ∨ k ≤ i ∨ capVec v < k)) ∧
    (∀ s, sliceVec v i k = .ok s →
      s.n = k.toNat - i.toNat ∧
      (∀ j, j < k.toNat - i.toNat → atVec s j = atVec v (i.toNat + j)) ∧
      (∀ j x, j < k.toNat - i.toNat →
        sliceVec (setVec v (i.toNat + j) x) i k = .ok (setVec s j x))) := by
  by_cases hP : i < 0 ∨ k ≤ i ∨ capVec v < k
  · constructor
    · unfold sliceVec
      rw [if_pos hP]
      simp [hP]
    · intro s hs
      unfold sliceVec at hs
      rw [if_pos hP] at hs
      exact absurd hs (by simp)
  · have hok : sliceVec v i k = .ok ⟨⟨v.mat.inc,
        (v.mat.data.drop (i.toNat * v.mat.inc)).take
          ((k.toNat - 1) * v.mat.inc + 1 - i.toNat * v.mat.inc)⟩,
        k.toNat - i.toNat⟩ := by
      unfold sliceVec
      rw [if_neg hP]
    constructor
    · rw [hok]
      simp [hP]
    · intro s hs
      rw [hok] at hs
      injection hs with hs2
      subst hs2
      push_neg at hP
      obtain ⟨hi0, hik, hcap⟩ := hP
      have hik2 : i.toNat < k.toNat := by omega
      refine ⟨rfl, ?_, ?_⟩
      · intro j hj
        have ht : j * v.mat.inc <
            (k.toNat - 1) * v.mat.inc + 1 - i.toNat * v.mat.inc := by
          have h1 : i.toNat * v.mat.inc ≤ (k.toNat - 1) * v.mat.inc :=
            Nat.mul_le_mul_right _ (by omega)
          have h2 : j * v.mat.inc ≤ (k.toNat - 1 - i.toNat) * v.mat.inc :=
            Nat.mul_le_mul_right _ (by omega)
          have h3 : (k.toNat - 1 - i.toNat) * v.mat.inc =
              (k.toNat - 1) * v.mat.inc - i.toNat * v.mat.inc :=
            Nat.sub_mul _ _ _
          omega
        show ((v.mat.data.drop (i.toNat * v.mat.inc)).take
            ((k.toNat - 1) * v.mat.inc + 1 - i.toNat * v.mat.inc)).getD
            (j * v.mat.inc) 0 =
          v.mat.data.getD ((i.toNat + j) * v.mat.inc) 0
        rw [List.getD_eq_getElem?_getD, List.getD_eq_getElem?_getD]
        rw [List.getElem?_take_of_lt ht, List.getElem?_drop]
        rw [show i.toNat * v.mat.inc + j * v.mat.inc =
          (i.toNat + j) * v.mat.inc from (Nat.add_mul _ _ _).symm]
      · intro j x hj
        have hcap2 : capVec (setVec v (i.toNat + j) x) = capVec v :=
          capVec_setVec v _ x
        unfold sliceVec
        rw [if_neg (by rw [hcap2]; omega)]
        have hdata : ((v.mat.data.set ((i.toNat + j) * v.mat.inc) x).drop
              (i.toNat * v.mat.inc)).take
              ((k.toNat - 1) * v.mat.inc + 1 - i.toNat * v.mat.inc) =
            ((v.mat.data.drop (i.toNat * v.mat.inc)).take
              ((k.toNat - 1) * v.mat.inc + 1 - i.toNat * v.mat.inc)).set
              (j * v.mat.inc) x := by
          rw [show (i.toNat + j) * v.mat.inc =
            i.toNat * v.mat.inc + j * v.mat.inc from Nat.add_mul _ _ _]
          rw [← List.set_drop, List.set_take]
        show (Except.ok (⟨⟨v.mat.inc,
            ((v.mat.data.set ((i.toNat + j) * v.mat.inc) x).drop
              (i.toNat * v.mat.inc)).take
              ((k.toNat - 1) * v.mat.inc + 1 - i.toNat * v.mat.inc)⟩,
            k.toNat - i.toNat⟩ : VecDense) : Except MatError VecDense) = _
        rw [hdata]
        rfl

/-- C7 witness: v = [1, 2, 3, 4], slice [1, 3): the slice is [2, 3] of
length 2, its elements read elements 1 and 2 of v, and writing 9 through
v at element 1 is writing 9 at element 0 of the slice. -/
theorem sliceVec_spec_witness :
    (⟨⟨1, [2, 3]⟩, 2⟩ : VecDense).n = 2 ∧
    atVec ⟨⟨1, [2, 3]⟩, 2⟩ 0 = atVec ⟨⟨1, [1, 2, 3, 4]⟩, 4⟩ 1 ∧
    atVec ⟨⟨1, [2, 3]⟩, 2⟩ 1 = atVec ⟨⟨1, [1, 2, 3, 4]⟩, 4⟩ 2 ∧
    sliceVec (setVec ⟨⟨1, [1, 2, 3, 4]⟩, 4⟩ 1 9) 1 3 =
      .ok (setVec ⟨⟨1, [2, 3]⟩, 2⟩ 0 9) :=
  have h := (sliceVec_spec ⟨⟨1, [1, 2, 3, 4]⟩, 4⟩ 1 3).2
    ⟨⟨1, [2, 3]⟩, 2⟩ (by rfl)
  ⟨h.1, h.2.1 0 (by decide), h.2.1 1 (by decide), h.2.2 0 9 (by decide)⟩

end Mat32
